import Mathlib

/-!
Shallow embedding of the `netduma_r3` Home Assistant integration
(`custom_components/netduma_r3/client.py` and `coordinator.py`) and proofs
about its documented behaviour.

JSON values are modelled by the inductive `JsonVal`; Python dictionaries are
association lists, looked up from the front (Python dicts have unique keys,
so first-match lookup agrees with Python semantics on every dict the code
builds).  Fallible Python expressions (attribute errors on non-dicts,
`int()` conversion failures, HTTP failures, ...) are modelled with
`Except Err`.  Floating point times and rates are modelled with `ℚ`; the
arithmetic the code performs on them (`max`, subtraction, division) is exact
at every input considered here.
-/

namespace NetdumaR3

/-- JSON values, as produced by `json.loads` / aiohttp `resp.json()`.
Numbers are restricted to integers, which covers every value handled in the
claims (byte counters, status payloads). -/
inductive JsonVal where
  | null
  | bool (b : Bool)
  | num (n : Int)
  | str (s : String)
  | arr (xs : List JsonVal)
  | obj (fields : List (String × JsonVal))

/-- Boolean equality on JSON values (Python `==` restricted to JSON shapes). -/
def jeq : JsonVal → JsonVal → Bool
  | .null, .null => true
  | .bool a, .bool b => a == b
  | .num a, .num b => a == b
  | .str a, .str b => a == b
  | .arr [], .arr [] => true
  | .arr (x :: xs), .arr (y :: ys) => jeq x y && jeq (.arr xs) (.arr ys)
  | .obj [], .obj [] => true
  | .obj ((k, v) :: fs), .obj ((k', v') :: fs') =>
      k == k' && jeq v v' && jeq (.obj fs) (.obj fs')
  | _, _ => false

/-- Python truthiness on JSON shapes (`None`, `False`, `0`, `""`, `[]`, `{}`
are falsy). -/
def pyTruthy : JsonVal → Bool
  | .null => false
  | .bool b => b
  | .num n => n != 0
  | .str s => s != ""
  | .arr xs => !xs.isEmpty
  | .obj fs => !fs.isEmpty

/-- Python `a or b` (returns the first truthy operand, else the second). -/
def pyOr (a b : JsonVal) : JsonVal := if pyTruthy a then a else b

/-- Errors raised by the modelled Python code. -/
inductive Err where
  | attributeError       -- attribute access on an object lacking it
  | typeError
  | valueError
  | keyError
  | clientError          -- aiohttp.ClientError escaping from session.post
  | httpStatus (status : Nat)  -- aiohttp raise_for_status
  | rpcError (payload : JsonVal)   -- RuntimeError("RPC error ...") in _rpc
  | authFailed (lastUrl : Option String) (lastStatus : Option Nat)
      -- RuntimeError("Netduma auth failed ...") at the end of _ensure_session
  | missingAttr (name : String)    -- AttributeError from a never-assigned self attribute

/-- First-match association list lookup (Python dict access for dicts built
by the code, whose keys are unique). -/
def assocGet {β : Type} : List (String × β) → String → Option β
  | [], _ => none
  | (k, v) :: r, a => if k = a then some v else assocGet r a

/-- Python `d[k] = v` on a dict: replace in place, or append a new key. -/
def dictSet {β : Type} : List (String × β) → String → β → List (String × β)
  | [], k, v => [(k, v)]
  | (k', v') :: r, k, v =>
      if k' = k then (k, v) :: r else (k', v') :: dictSet r k v

/-- Python `d.update(new)`: `dictSet` every pair of `new` into `d`, in order. -/
def dictUpdate {β : Type} (m new : List (String × β)) : List (String × β) :=
  new.foldl (fun acc kv => dictSet acc kv.1 kv.2) m

/-- Python `v.get(k)` — `dict.get` with default `None`; raises
`AttributeError` on non-dicts. -/
def pyGet (v : JsonVal) (k : String) : Except Err JsonVal :=
  match v with
  | .obj fs => .ok ((assocGet fs k).getD .null)
  | _ => .error .attributeError

/-- Python `v.get(k, d)` — `dict.get` with an explicit default. -/
def pyGetD (v : JsonVal) (k : String) (d : JsonVal) : Except Err JsonVal :=
  match v with
  | .obj fs => .ok ((assocGet fs k).getD d)
  | _ => .error .attributeError

/-- Python `v[k]` — subscript with a string key. -/
def pySubscript (v : JsonVal) (k : String) : Except Err JsonVal :=
  match v with
  | .obj fs =>
      match assocGet fs k with
      | some x => .ok x
      | none => .error .keyError
  | _ => .error .typeError

/-- Python `str(v)` on JSON shapes.  `str(None) = "None"` is the case the
code actually exercises; list/dict reprs are abbreviated (no claim inspects
them). -/
def pyStr : JsonVal → String
  | .null => "None"
  | .bool true => "True"
  | .bool false => "False"
  | .num n => toString n
  | .str s => s
  | .arr _ => "[...]"
  | .obj _ => "\x7b...\x7d"

/-- Python `int(v)`: ints pass through, bools coerce, strings are parsed
(ValueError on failure), anything else is a TypeError. -/
def pyInt : JsonVal → Except Err Int
  | .num n => .ok n
  | .bool b => .ok (if b then 1 else 0)
  | .str s =>
      match s.trim.toInt? with
      | some n => .ok n
      | none => .error .valueError
  | _ => .error .typeError

/-- Python `for x in v`: lists yield elements, strings yield one-character
strings, dicts yield their keys; other shapes raise `TypeError`. -/
def pyIter : JsonVal → Except Err (List JsonVal)
  | .arr xs => .ok xs
  | .str s => .ok (s.data.map (fun c => .str (String.singleton c)))
  | .obj fs => .ok (fs.map (fun kv => .str kv.1))
  | _ => .error .typeError

/-- Python `k in v` for a string `k` (key test on dicts, membership on
lists, substring test on strings). -/
def pyContains (v : JsonVal) (k : String) : Except Err Bool :=
  match v with
  | .obj fs => .ok ((assocGet fs k).isSome)
  | .arr xs => .ok (xs.any (fun x => jeq x (.str k)))
  | .str s => .ok ((s.splitOn k).length > 1)
  | _ => .error .typeError

/-! ### A model of `json.loads`

The integration calls the Python standard library's `json.loads` inside
`_parse_tree`.  The decoder below accepts standard JSON (objects, arrays,
strings with the common escapes, integer numbers, literals) and rejects
everything else; it is fuel-indexed to make termination structural. -/

def quoteChar : Char := Char.ofNat 34
def backslashChar : Char := Char.ofNat 92
def lbraceChar : Char := Char.ofNat 123
def rbraceChar : Char := Char.ofNat 125

def isWsChar (c : Char) : Bool :=
  c = ' ' || c = Char.ofNat 9 || c = Char.ofNat 10 || c = Char.ofNat 13

def skipWs : List Char → List Char
  | [] => []
  | c :: cs => if isWsChar c then skipWs cs else c :: cs

def isDigitChar (c : Char) : Bool := '0' ≤ c && c ≤ '9'

def digitsToNat (ds : List Char) : Nat :=
  ds.foldl (fun a c => a * 10 + (c.toNat - 48)) 0

/-- Consume a JSON string body (the opening quote has been consumed). -/
def parseJString : List Char → Option (String × List Char)
  | [] => none
  | c :: cs =>
      if c = quoteChar then some ("", cs)
      else if c = backslashChar then
        match cs with
        | [] => none
        | e :: cs' =>
            let esc : Option Char :=
              if e = quoteChar then some quoteChar
              else if e = backslashChar then some backslashChar
              else if e = '/' then some '/'
              else if e = 'n' then some (Char.ofNat 10)
              else if e = 't' then some (Char.ofNat 9)
              else if e = 'r' then some (Char.ofNat 13)
              else none
            match esc with
            | none => none
            | some ch =>
                match parseJString cs' with
                | none => none
                | some (s, rest) => some (String.singleton ch ++ s, rest)
      else
        match parseJString cs with
        | none => none
        | some (s, rest) => some (String.singleton c ++ s, rest)

/-- Match an exact literal. -/
def expectLit : List Char → List Char → Option (List Char)
  | [], cs => some cs
  | _, [] => none
  | l :: ls, c :: cs => if c = l then expectLit ls cs else none

mutual

def parseVal : Nat → List Char → Option (JsonVal × List Char)
  | 0, _ => none
  | fuel + 1, cs0 =>
      match skipWs cs0 with
      | [] => none
      | c :: rest =>
          if c = lbraceChar then
            match skipWs rest with
            | [] => none
            | c2 :: rest2 =>
                if c2 = rbraceChar then some (.obj [], rest2)
                else
                  match parseMembers fuel (c2 :: rest2) with
                  | none => none
                  | some (fs, rest3) => some (.obj fs, rest3)
          else if c = '[' then
            match skipWs rest with
            | [] => none
            | c2 :: rest2 =>
                if c2 = ']' then some (.arr [], rest2)
                else
                  match parseElems fuel (c2 :: rest2) with
                  | none => none
                  | some (xs, rest3) => some (.arr xs, rest3)
          else if c = quoteChar then
            match parseJString rest with
            | none => none
            | some (s, rest2) => some (.str s, rest2)
          else if c = 't' then
            match expectLit ['r', 'u', 'e'] rest with
            | none => none
            | some rest2 => some (.bool true, rest2)
          else if c = 'f' then
            match expectLit ['a', 'l', 's', 'e'] rest with
            | none => none
            | some rest2 => some (.bool false, rest2)
          else if c = 'n' then
            match expectLit ['u', 'l', 'l'] rest with
            | none => none
            | some rest2 => some (.null, rest2)
          else if c = '-' then
            match rest.span isDigitChar with
            | ([], _) => none
            | (ds, rest2) => some (.num (-(digitsToNat ds : Int)), rest2)
          else if isDigitChar c then
            match (c :: rest).span isDigitChar with
            | ([], _) => none
            | (ds, rest2) => some (.num (digitsToNat ds : Int), rest2)
          else none

def parseElems : Nat → List Char → Option (List JsonVal × List Char)
  | 0, _ => none
  | fuel + 1, cs =>
      match parseVal fuel cs with
      | none => none
      | some (v, rest) =>
          match skipWs rest with
          | ',' :: rest2 =>
              match parseElems fuel rest2 with
              | none => none
              | some (vs, rest3) => some (v :: vs, rest3)
          | ']' :: rest2 => some ([v], rest2)
          | _ => none

def parseMembers : Nat → List Char → Option (List (String × JsonVal) × List Char)
  | 0, _ => none
  | fuel + 1, cs =>
      match skipWs cs with
      | c :: rest =>
          if c = quoteChar then
            match parseJString rest with
            | none => none
            | some (k, rest2) =>
                match skipWs rest2 with
                | ':' :: rest3 =>
                    match parseVal fuel rest3 with
                    | none => none
                    | some (v, rest4) =>
                        match skipWs rest4 with
                        | ',' :: rest5 =>
                            match parseMembers fuel rest5 with
                            | none => none
                            | some (fs, rest6) => some ((k, v) :: fs, rest6)
                        | c6 :: rest6 =>
                            if c6 = rbraceChar then some ([(k, v)], rest6) else none
                        | _ => none
                | _ => none
          else none
      | [] => none

end

/-- Model of Python `json.loads`: decode the whole string or fail. -/
def jsonDecode (s : String) : Option JsonVal :=
  match parseVal (s.length + 1) s.data with
  | none => none
  | some (v, rest) => if (skipWs rest).isEmpty then some v else none

/-! ### `_parse_tree` (client.py lines 192-206) -/

/-- Model of `_parse_tree(result_any)`: unwrap a QoS tree RPC result.  A non-empty
list contributes its first element as the candidate, otherwise the raw value
is the candidate; a string candidate is `json.loads`-decoded with decode
failure yielding `{}`; a dict candidate is returned unchanged; anything else
yields `{}`.  Total: the only exception source (`json.loads`) is caught. -/
def parse_tree (result_any : JsonVal) : JsonVal :=
  let inner :=
    match result_any with
    | .arr (x :: _) => x
    | _ => result_any
  match inner with
  | .str s => (jsonDecode s).getD (.obj [])
  | .obj fs => .obj fs
  | _ => .obj []

/-! ### Coordinator data model (coordinator.py) -/

/-- One value of `self.data["devices"]` as built by `_index_devices`:
`{"name": ..., "macs": [...]}`. -/
structure DeviceMeta where
  name : JsonVal
  macs : List JsonVal

/-- One value of `self.data["traffic"]`: `_traffic_from_trees` produces
`{"rx_bytes": ..., "tx_bytes": ...}` (rate keys absent, modelled `none`);
`_merge_traffic` adds `rx_rate_bps` / `tx_rate_bps`. -/
structure TEntry where
  rx_bytes : Int
  tx_bytes : Int
  rx_rate_bps : Option ℚ
  tx_rate_bps : Option ℚ
deriving DecidableEq

/-- The aggregate `self.data` dict.  The code only ever reads or writes the
four literal keys `devices`, `presence`, `traffic`, `system`; a field is
`none` when the corresponding key is absent. -/
structure DataMap where
  devices : Option (List (String × DeviceMeta))
  presence : Option (List (String × Bool))
  traffic : Option (List (String × TEntry))
  system : Option JsonVal

/-- Coordinator state: `self.data` (which is `None` before the first full
refresh), the `_last_bytes` defaultdict (pairs `(rx, tx)`, zero default) and
`_last_ts`. -/
structure CoordState where
  data : Option DataMap
  last_bytes : List (String × (Int × Int))
  last_ts : ℚ

/-- Dereference of `self.data` (`AttributeError` while it is still `None`). -/
def getData (st : CoordState) : Except Err DataMap :=
  match st.data with
  | some dm => .ok dm
  | none => .error .attributeError

/-! ### `_traffic_from_trees` (coordinator.py lines 133-150) -/

/-- Python `acc.setdefault(devid, {"rx_bytes": 0, "tx_bytes": 0})`. -/
def accSetdefault (acc : List (String × TEntry)) (devid : String) :
    List (String × TEntry) :=
  if (assocGet acc devid).isSome then acc else acc ++ [(devid, ⟨0, 0, none, none⟩)]

/-- Python `acc[devid][key] += bytes_val` where `key` is `rx_bytes` when
`isDown = true` (download tree), `tx_bytes` otherwise. -/
def accAdd : List (String × TEntry) → String → Bool → Int → List (String × TEntry)
  | [], _, _, _ => []
  | (k, e) :: r, devid, isDown, n =>
      if k = devid then
        (k, if isDown then { e with rx_bytes := e.rx_bytes + n }
            else { e with tx_bytes := e.tx_bytes + n }) :: r
      else (k, e) :: accAdd r devid isDown n

/-- The loop body for one allocation entry (lines 144-147): extract
`match.devid` (stringified), `int(bytes)`, then setdefault and accumulate. -/
def alloc_step (isDown : Bool) (item : JsonVal) (acc : List (String × TEntry)) :
    Except Err (List (String × TEntry)) :=
  match pyGetD item "match" (.obj []) with
  | .error e => .error e
  | .ok m =>
      match pyGet m "devid" with
      | .error e => .error e
      | .ok dv =>
          let devid := pyStr dv
          match pyGetD item "bytes" (.num 0) with
          | .error e => .error e
          | .ok bv =>
              match pyInt bv with
              | .error e => .error e
              | .ok n => .ok (accAdd (accSetdefault acc devid) devid isDown n)

/-- Loop `for item in ba` under the enclosing `try`: an exception on an entry
aborts this tree (the `except: continue`), keeping what was already
accumulated into `acc` by earlier entries. -/
def process_items (isDown : Bool) :
    List JsonVal → List (String × TEntry) → List (String × TEntry)
  | [], acc => acc
  | item :: rest, acc =>
      match alloc_step isDown item acc with
      | .ok acc' => process_items isDown rest acc'
      | .error _ => acc

/-- Lines 138-142: `tree.get("AutoAlloc", {}).get("bandwidth_allocations")
or tree.get("AutoAlloc", {}).get("BandwidthAllocations") or []`. -/
def extract_allocations (tree : JsonVal) : Except Err JsonVal :=
  match pyGetD tree "AutoAlloc" (.obj []) with
  | .error e => .error e
  | .ok auto1 =>
      match pyGet auto1 "bandwidth_allocations" with
      | .error e => .error e
      | .ok v1 =>
          if pyTruthy v1 then .ok v1
          else
            match pyGetD tree "AutoAlloc" (.obj []) with
            | .error e => .error e
            | .ok auto2 =>
                match pyGet auto2 "BandwidthAllocations" with
                | .error e => .error e
                | .ok v2 => if pyTruthy v2 then .ok v2 else .ok (.arr [])

/-- Allocation-list extraction plus the implicit iteration of `for item in ba`. -/
def tree_items (tree : JsonVal) : Except Err (List JsonVal) :=
  match extract_allocations tree with
  | .error e => .error e
  | .ok ba => pyIter ba

/-- Process one tree inside the `try`/`except Exception: continue`. -/
def process_tree (isDown : Bool) (tree : JsonVal) (acc : List (String × TEntry)) :
    List (String × TEntry) :=
  match tree_items tree with
  | .ok items => process_items isDown items acc
  | .error _ => acc

/-- Model of `_traffic_from_trees(up_tree, down_tree)`: download tree first
(accumulating `rx_bytes`), then upload tree (`tx_bytes`). -/
def traffic_from_trees (up_tree down_tree : JsonVal) : List (String × TEntry) :=
  process_tree false up_tree (process_tree true down_tree [])

/-- Whether processing a tree raises an exception somewhere (at extraction,
iteration, or on some allocation entry).  `alloc_step` succeeds or fails
independently of the accumulator and of the direction, so the probe uses
`isDown = true` and an empty accumulator. -/
def tree_malformed (tree : JsonVal) : Bool :=
  match tree_items tree with
  | .ok items =>
      items.any (fun it =>
        match alloc_step true it [] with
        | .ok _ => false
        | .error _ => true)
  | .error _ => true

/-! ### `_index_devices` (lines 116-124) -/

/-- Comprehension `[i.get("mac") for i in ... if i.get("mac")]`. -/
def macsOf : List JsonVal → Except Err (List JsonVal)
  | [] => .ok []
  | i :: rest =>
      match pyGet i "mac" with
      | .error e => .error e
      | .ok m =>
          match macsOf rest with
          | .error e => .error e
          | .ok tl => .ok (if pyTruthy m then m :: tl else tl)

/-- Loop body of `_index_devices` for one device dict. -/
def index_device_one (d : JsonVal) : Except Err (String × DeviceMeta) :=
  match pyGet d "devid" with
  | .error e => .error e
  | .ok dv =>
      let devid := pyStr dv
      match pyGet d "uhost" with
      | .error e => .error e
      | .ok uh =>
          match pyGet d "hostname" with
          | .error e => .error e
          | .ok hn =>
              let name := if pyTruthy uh then uh
                else if pyTruthy hn then hn
                else .str ("device_" ++ devid)
              match pyGetD d "interfaces" (.arr []) with
              | .error e => .error e
              | .ok ifs =>
                  match pyIter ifs with
                  | .error e => .error e
                  | .ok items =>
                      match macsOf items with
                      | .error e => .error e
                      | .ok macs => .ok (devid, ⟨name, macs⟩)

def index_devices_go : List JsonVal → List (String × DeviceMeta) →
    Except Err (List (String × DeviceMeta))
  | [], out => .ok out
  | d :: rest, out =>
      match index_device_one d with
      | .error e => .error e
      | .ok (devid, meta) => index_devices_go rest (dictSet out devid meta)

/-- Model of `_index_devices(devices)`. -/
def index_devices (devices : JsonVal) : Except Err (List (String × DeviceMeta)) :=
  match pyIter devices with
  | .error e => .error e
  | .ok items => index_devices_go items []

/-! ### `_presence_map` (lines 126-131) -/

/-- Association lookup with JSON-valued keys (Python dict keyed by whatever
`i.get("mac")` returned), using `jeq`. -/
def assocGetJ : List (JsonVal × Bool) → JsonVal → Option Bool
  | [], _ => none
  | (k, v) :: r, a => if jeq k a then some v else assocGetJ r a

/-- Python `d[k] = v` for the JSON-keyed dict. -/
def dictSetJ : List (JsonVal × Bool) → JsonVal → Bool → List (JsonVal × Bool)
  | [], k, v => [(k, v)]
  | (k', v') :: r, k, v =>
      if jeq k' k then (k, v) :: r else (k', v') :: dictSetJ r k v

/-- Comprehension `{i.get("mac"): True for i in online if i.get("mac")}`. -/
def mac_online_map : List JsonVal → List (JsonVal × Bool) →
    Except Err (List (JsonVal × Bool))
  | [], acc => .ok acc
  | i :: rest, acc =>
      match pyGet i "mac" with
      | .error e => .error e
      | .ok m =>
          mac_online_map rest (if pyTruthy m then dictSetJ acc m true else acc)

/-- Model of `_presence_map(online)`: reads `self.data.get("devices", {})` of the
*current* coordinator state; each device is present iff `any` of its macs is
a key of `mac_online`. -/
def presence_map (st : CoordState) (online : JsonVal) :
    Except Err (List (String × Bool)) :=
  match pyIter online with
  | .error e => .error e
  | .ok items =>
      match mac_online_map items [] with
      | .error e => .error e
      | .ok mo =>
          match st.data with
          | none => .error .attributeError    -- self.data is None
          | some dm =>
              .ok ((dm.devices.getD []).map (fun kv =>
                (kv.1, kv.2.macs.any (fun m => (assocGetJ mo m).getD false))))

/-! ### The merge / refresh steps (lines 79-114) -/

/-- Model of `_merge_state(devices, online, up, down, sys)` (lines 87-97) together
with the `time.time()` / `_last_bytes` seeding.  Note that
`self._presence_map` runs while `self.data` is still the *previous* state
object, so presence is computed against the previous device index. -/
def merge_state (st : CoordState) (now : ℚ)
    (devices online up down sysv : JsonVal) : Except Err CoordState :=
  match index_devices (pyOr devices (.arr [])) with
  | .error e => .error e
  | .ok idx =>
      match presence_map st (pyOr online (.arr [])) with
      | .error e => .error e
      | .ok pres =>
          let traffic := traffic_from_trees (pyOr up (.obj [])) (pyOr down (.obj []))
          let lb := traffic.foldl (fun lb kv => dictSet lb kv.1 (kv.2.rx_bytes, kv.2.tx_bytes)) st.last_bytes
          .ok { data := some ⟨some idx, some pres, some traffic, some (pyOr sysv (.obj []))⟩,
                last_bytes := lb, last_ts := now }

/-- Model of `_merge_presence(online)` (lines 99-100). -/
def merge_presence (st : CoordState) (online : JsonVal) : Except Err CoordState :=
  match st.data with
  | none => .error .attributeError          -- self.data.setdefault on None
  | some dm =>
      match presence_map st (pyOr online (.arr [])) with
      | .error e => .error e
      | .ok pm =>
          let dm' := { dm with presence := some (dictUpdate (dm.presence.getD []) pm) }
          .ok { st with data := some dm' }

/-- The per-device loop of `_merge_traffic` (lines 108-113): annotate each
merged entry with `rx_rate_bps` / `tx_rate_bps` against the `_last_bytes`
baseline (defaultdict zero) and store the new byte counts as the baseline. -/
def rate_entries (dt : ℚ) :
    List (String × TEntry) → List (String × (Int × Int)) →
    List (String × TEntry) × List (String × (Int × Int))
  | [], lb => ([], lb)
  | (devid, e) :: rest, lb =>
      let last := (assocGet lb devid).getD (0, 0)
      let e' : TEntry :=
        { e with
          rx_rate_bps := some (((e.rx_bytes : ℚ) - (last.1 : ℚ)) / dt),
          tx_rate_bps := some (((e.tx_bytes : ℚ) - (last.2 : ℚ)) / dt) }
      let (restOut, lbOut) := rate_entries dt rest (dictSet lb devid (e.rx_bytes, e.tx_bytes))
      ((devid, e') :: restOut, lbOut)

/-- Model of `_merge_traffic(up, down)` (lines 102-114).  `dt = max(1.0, now -
(self._last_ts or now))`; `self._last_ts = now`; rates are derived for every
device of the fresh sample; finally
`self.data.setdefault("traffic", {}).update(merged)`. -/
def merge_traffic (st : CoordState) (now : ℚ) (up down : JsonVal) :
    Except Err CoordState :=
  let dt := max 1 (now - (if st.last_ts = 0 then now else st.last_ts))
  let merged := traffic_from_trees (pyOr up (.obj [])) (pyOr down (.obj []))
  let (rated, lb') := rate_entries dt merged st.last_bytes
  match st.data with
  | none => .error .attributeError          -- self.data.setdefault on None
  | some dm =>
      let dm' := { dm with traffic := some (dictUpdate (dm.traffic.getD []) rated) }
      .ok { data := some dm', last_bytes := lb', last_ts := now }

/-- Python `dict.update` of the stored system dict by `sys or {}` (line 82);
raises unless both sides are dicts. -/
def pyDictUpdate (a b : JsonVal) : Except Err JsonVal :=
  match a, b with
  | .obj fa, .obj fb => .ok (.obj (dictUpdate fa fb))
  | .obj _, _ => .error .typeError
  | _, _ => .error .attributeError

/-- The merge step of `_refresh_system` (line 82):
`self.data.setdefault("system", {}).update(sys or {})`. -/
def refresh_system (st : CoordState) (sysv : JsonVal) : Except Err CoordState :=
  match st.data with
  | none => .error .attributeError
  | some dm =>
      match pyDictUpdate (dm.system.getD (.obj [])) (pyOr sysv (.obj [])) with
      | .error e => .error e
      | .ok merged =>
          let dm' := { dm with system := some merged }
          .ok { st with data := some dm' }

/-- The `traffic` dict inside `self.data` (empty when absent), for stating
theorems. -/
def CoordState.trafficDict (st : CoordState) : List (String × TEntry) :=
  match st.data with
  | some dm => dm.traffic.getD []
  | none => []

/-! ### The RPC transport (client.py) -/

/-- An HTTP request as far as the model distinguishes them: target URL and
whether basic-auth credentials were attached. -/
structure Req where
  url : String
  withAuth : Bool
deriving DecidableEq

/-- The network: `none` models `aiohttp.ClientError`, otherwise a status and
the decoded JSON body. -/
def Oracle : Type := Req → Option (Nat × JsonVal)

/-- The `DumaOSClient` attributes relevant to the model, as set by
`__init__` (client.py lines 17-33). -/
structure Client where
  base : String
  verify_ssl : Bool
  username : Option String
  password : Option String
deriving DecidableEq

/-- Constructor `DumaOSClient(host, session, verify_ssl=..., username=..., password=...)`:
`self._base = f"https://{host}"`. -/
def mkClient (host : String) (verify_ssl : Bool)
    (username password : Option String) : Client :=
  { base := "https://" ++ host, verify_ssl := verify_ssl,
    username := username, password := password }

/-- Python truthiness of `self._username and self._password`. -/
def credsOk (c : Client) : Bool :=
  match c.username, c.password with
  | some u, some p => u != "" && p != ""
  | _, _ => false

/-- The instance attributes assigned by `__init__` (client.py lines 26-33).
`_host` is **not** among them, although `_ensure_session` reads
`self._host` (lines 66 and 87). -/
def initAttrs : List String :=
  ["_base", "_session", "_verify_ssl", "_username", "_password", "_id", "_headers"]

/-- Reading `self._host`: `AttributeError` unless `__init__` assigned it. -/
def hostAttr (_c : Client) : Except Err String :=
  if initAttrs.contains "_host" then .ok "" else .error (.missingAttr "_host")

/-- Model of `_ensure_session` (lines 56-134).  Without configured credentials it
returns immediately (no request).  With credentials, the first statement of
the probe loop (line 66) dereferences `self._host`, which `__init__` never
assigned, so the probe / cookie-login negotiation of lines 63-134 is
unreachable and the call raises `AttributeError`. -/
def ensure_session (_o : Oracle) (c : Client) : Except Err Client × List Req :=
  if credsOk c then
    match hostAttr c with
    | .error e => (.error e, [])
    | .ok _h =>
        -- dead code: `initAttrs.contains "_host"` is `false`, so the
        -- negotiation of client.py lines 63-134 can never execute.
        (.error (.authFailed none none), [])
  else (.ok c, [])

/-- Python `if status >= 400: raise` — `resp.raise_for_status()`. -/
def raiseForStatus (status : Nat) : Except Err Unit :=
  if 400 ≤ status then .error (.httpStatus status) else .ok ()

/-- Lines 157-159: a body containing an `error` field raises
`RuntimeError(f"RPC error {data['error']}")`; otherwise
`data.get("result")` is returned (`None` when absent). -/
def parse_body (body : JsonVal) : Except Err JsonVal :=
  match pyContains body "error" with
  | .error e => .error e
  | .ok true =>
      match pySubscript body "error" with
      | .error e => .error e
      | .ok payload => .error (.rpcError payload)
  | .ok false => pyGet body "result"

/-- URL `f"{self._base}/apps/{app}/rpc/"` (line 139). -/
def rpcUrl (c : Client) (app : String) : String :=
  c.base ++ "/apps/" ++ app ++ "/rpc/"

/-- Model of `_rpc(app, method)` (lines 136-159), also returning the list of HTTP
requests issued, in order.  Attempt 0 posts with basic auth iff credentials
are configured; a 401 on attempt 0 is retried once without auth; any other
non-2xx raises; then the JSON-RPC body is interpreted. -/
def rpc (o : Oracle) (c : Client) (app _method : String) :
    Except Err JsonVal × List Req :=
  match ensure_session o c with
  | (.error e, tr) => (.error e, tr)
  | (.ok c', tr) =>
      let url := rpcUrl c' app
      let r0 : Req := ⟨url, credsOk c'⟩
      match o r0 with
      | none => (.error .clientError, tr ++ [r0])
      | some (s0, body0) =>
          if s0 = 401 then
            let r1 : Req := ⟨url, false⟩
            match o r1 with
            | none => (.error .clientError, tr ++ [r0, r1])
            | some (s1, body1) =>
                match raiseForStatus s1 with
                | .error e => (.error e, tr ++ [r0, r1])
                | .ok _ => (parse_body body1, tr ++ [r0, r1])
          else
            match raiseForStatus s0 with
            | .error e => (.error e, tr ++ [r0])
            | .ok _ => (parse_body body0, tr ++ [r0])

/-! ## Association-list lemmas -/

theorem assocGet_dictSet_self {β : Type} (m : List (String × β)) (k : String) (v : β) :
    assocGet (dictSet m k v) k = some v := by
  induction m with
  | nil => simp [dictSet, assocGet]
  | cons kv r ih =>
      obtain ⟨k', v'⟩ := kv
      by_cases h : k' = k
      · simp [dictSet, h, assocGet]
      · simp [dictSet, h, assocGet, ih]

theorem assocGet_dictSet_other {β : Type} (m : List (String × β)) (k d : String) (v : β)
    (h : d ≠ k) :
    assocGet (dictSet m k v) d = assocGet m d := by
  induction m with
  | nil => simp [dictSet, assocGet, Ne.symm h]
  | cons kv r ih =>
      obtain ⟨k', v'⟩ := kv
      by_cases h' : k' = k
      · subst h'
        simp [dictSet, assocGet, Ne.symm h, h]
      · by_cases h'' : k' = d <;> simp [dictSet, h', assocGet, h'', ih, h]

theorem assocGet_append_right {β : Type} (m : List (String × β)) (l : List (String × β))
    (d : String) (h : assocGet m d = none) :
    assocGet (m ++ l) d = assocGet l d := by
  induction m with
  | nil => simp
  | cons kv r ih =>
      obtain ⟨k', v'⟩ := kv
      by_cases h' : k' = d
      · simp [assocGet, h'] at h
      · simp [assocGet, h'] at h ⊢
        exact ih h

theorem assocGet_append_left {β : Type} (m l : List (String × β)) (d : String)
    (h : (assocGet m d).isSome) :
    assocGet (m ++ l) d = assocGet m d := by
  induction m with
  | nil => simp [assocGet] at h
  | cons kv r ih =>
      obtain ⟨k', v'⟩ := kv
      by_cases h' : k' = d
      · simp [assocGet, h']
      · simp [assocGet, h'] at h ⊢
        exact ih h

theorem assocGet_eq_none_iff {β : Type} (m : List (String × β)) (d : String) :
    assocGet m d = none ↔ d ∉ m.map Prod.fst := by
  induction m with
  | nil => simp [assocGet]
  | cons kv r ih =>
      obtain ⟨k', v'⟩ := kv
      by_cases h : k' = d
      · subst h
        simp [assocGet]
      · simp [assocGet, h, ih, Ne.symm h]

theorem assocGet_dictUpdate_of_none {β : Type} (m new : List (String × β)) (d : String)
    (h : assocGet new d = none) :
    assocGet (dictUpdate m new) d = assocGet m d := by
  induction new generalizing m with
  | nil => simp [dictUpdate]
  | cons kv r ih =>
      obtain ⟨k0, v0⟩ := kv
      by_cases hk : k0 = d
      · simp [assocGet, hk] at h
      · simp only [assocGet, if_neg hk] at h
        simp only [dictUpdate, List.foldl_cons] at ih ⊢
        rw [ih _ h, assocGet_dictSet_other _ _ _ _ (Ne.symm hk)]

theorem assocGet_dictUpdate_of_mem {β : Type} (m new : List (String × β)) (d : String)
    (hnd : (new.map Prod.fst).Nodup) (v : β) (h : assocGet new d = some v) :
    assocGet (dictUpdate m new) d = some v := by
  induction new generalizing m with
  | nil => simp [assocGet] at h
  | cons kv r ih =>
      obtain ⟨k0, v0⟩ := kv
      simp only [List.map_cons, List.nodup_cons] at hnd
      simp only [dictUpdate, List.foldl_cons] at ih ⊢
      by_cases hk : k0 = d
      · subst hk
        have hv : v0 = v := by simpa [assocGet] using h
        subst hv
        have hr : assocGet r k0 = none := (assocGet_eq_none_iff r k0).mpr hnd.1
        have := assocGet_dictUpdate_of_none (dictSet m k0 v0) r k0 hr
        simp only [dictUpdate] at this
        rw [this, assocGet_dictSet_self]
      · simp only [assocGet, if_neg hk] at h
        exact ih (dictSet m k0 v0) hnd.2 h

/-! ## Traffic-accumulator lemmas -/

/-- Adding `n` bytes to the direction selected by `isDown` (the effect of
one `acc[devid][key] += bytes_val`). -/
def tAdd (isDown : Bool) (n : Int) (e : TEntry) : TEntry :=
  if isDown then { e with rx_bytes := e.rx_bytes + n }
  else { e with tx_bytes := e.tx_bytes + n }

/-- Total bytes of the allocation entries with key `d`. -/
def sumBy {α : Type} (kf : α → String) (bf : α → Int) (l : List α) (d : String) : Int :=
  ((l.filter (fun a => kf a == d)).map bf).sum

theorem tAdd_zero (b : Bool) (e : TEntry) : tAdd b 0 e = e := by
  cases b <;> simp [tAdd]

theorem tAdd_tAdd (b : Bool) (n s : Int) (e : TEntry) :
    tAdd b s (tAdd b n e) = tAdd b (n + s) e := by
  cases b <;> simp [tAdd, add_assoc]

theorem assocGet_accSetdefault_self (acc : List (String × TEntry)) (k : String) :
    assocGet (accSetdefault acc k) k
      = some ((assocGet acc k).getD ⟨0, 0, none, none⟩) := by
  unfold accSetdefault
  cases h : assocGet acc k with
  | some e => simp [h]
  | none =>
      simp only [h, Option.isSome_none, Bool.false_eq_true, if_false, Option.getD_none]
      rw [assocGet_append_right _ _ _ h]
      simp [assocGet]

theorem assocGet_accSetdefault_other (acc : List (String × TEntry)) (k d : String)
    (h : d ≠ k) :
    assocGet (accSetdefault acc k) d = assocGet acc d := by
  unfold accSetdefault
  cases hk : (assocGet acc k).isSome with
  | true => simp
  | false =>
      simp only [Bool.false_eq_true, if_false]
      cases hd : assocGet acc d with
      | some e => rw [assocGet_append_left _ _ _ (by simp [hd]), hd]
      | none =>
          rw [assocGet_append_right _ _ _ hd]
          simp [assocGet, Ne.symm h]

theorem assocGet_accAdd_self (acc : List (String × TEntry)) (k : String)
    (b : Bool) (n : Int) :
    assocGet (accAdd acc k b n) k = (assocGet acc k).map (tAdd b n) := by
  induction acc with
  | nil => simp [accAdd, assocGet]
  | cons kv r ih =>
      obtain ⟨k', e⟩ := kv
      by_cases h : k' = k
      · subst h
        simp [accAdd, assocGet, tAdd]
      · simp [accAdd, h, assocGet, ih]

theorem assocGet_accAdd_other (acc : List (String × TEntry)) (k d : String)
    (b : Bool) (n : Int) (h : d ≠ k) :
    assocGet (accAdd acc k b n) d = assocGet acc d := by
  induction acc with
  | nil => simp [accAdd, assocGet]
  | cons kv r ih =>
      obtain ⟨k', e⟩ := kv
      by_cases h' : k' = k
      · subst h'
        simp [accAdd, assocGet, Ne.symm h, h]
      · by_cases h'' : k' = d <;> simp [accAdd, h', assocGet, h'', ih, h]

theorem accAdd_map_fst (acc : List (String × TEntry)) (k : String) (b : Bool) (n : Int) :
    (accAdd acc k b n).map Prod.fst = acc.map Prod.fst := by
  induction acc with
  | nil => simp [accAdd]
  | cons kv r ih =>
      obtain ⟨k', e⟩ := kv
      by_cases h : k' = k <;> simp [accAdd, h, ih]

theorem accSetdefault_map_fst (acc : List (String × TEntry)) (k : String) :
    (accSetdefault acc k).map Prod.fst
      = if (assocGet acc k).isSome then acc.map Prod.fst else acc.map Prod.fst ++ [k] := by
  unfold accSetdefault
  cases h : (assocGet acc k).isSome <;> simp [h]

/-- Keys stay duplicate-free under one allocation-step accumulator update. -/
theorem step_acc_nodup (acc : List (String × TEntry)) (k : String) (b : Bool) (n : Int)
    (h : (acc.map Prod.fst).Nodup) :
    ((accAdd (accSetdefault acc k) k b n).map Prod.fst).Nodup := by
  rw [accAdd_map_fst, accSetdefault_map_fst]
  cases hk : (assocGet acc k).isSome with
  | true => simpa using h
  | false =>
      have : k ∉ acc.map Prod.fst := by
        rw [← assocGet_eq_none_iff]
        cases hres : assocGet acc k with
        | none => rfl
        | some e => rw [hres] at hk; simp at hk
      simp only [Bool.false_eq_true, if_false]
      refine List.nodup_append.mpr ⟨h, List.nodup_singleton _, ?_⟩
      intro x hx hx'
      simp only [List.mem_singleton] at hx'
      subst hx'
      exact this hx

/-- Characterisation of `process_items` over a list of well-formed
allocation entries built by `f`, with device key `kf` and byte count `bf`:
each key of the accumulator-or-sample list ends up present, holding its
prior value plus the total bytes of its entries, in the direction selected
by `isDown`. -/
theorem process_items_build {α : Type} (isDown : Bool) (f : α → JsonVal)
    (kf : α → String) (bf : α → Int)
    (hf : ∀ a acc, alloc_step isDown (f a) acc
        = .ok (accAdd (accSetdefault acc (kf a)) (kf a) isDown (bf a))) :
    ∀ (l : List α) (acc : List (String × TEntry)) (d : String),
      assocGet (process_items isDown (l.map f) acc) d =
        if (assocGet acc d).isSome = true ∨ d ∈ l.map kf then
          some (tAdd isDown (sumBy kf bf l d) ((assocGet acc d).getD ⟨0, 0, none, none⟩))
        else none := by
  intro l
  induction l with
  | nil =>
      intro acc d
      cases h : assocGet acc d with
      | some e => simp [process_items, h, sumBy, tAdd_zero]
      | none => simp [process_items, h, sumBy]
  | cons a rest ih =>
      intro acc d
      rw [List.map_cons]
      have hstep : process_items isDown (f a :: rest.map f) acc
          = process_items isDown (rest.map f)
              (accAdd (accSetdefault acc (kf a)) (kf a) isDown (bf a)) := by
        simp [process_items, hf a acc]
      rw [hstep, ih]
      by_cases hd : d = kf a
      · subst hd
        have hself : assocGet (accAdd (accSetdefault acc (kf a)) (kf a) isDown (bf a)) (kf a)
            = some (tAdd isDown (bf a) ((assocGet acc (kf a)).getD ⟨0, 0, none, none⟩)) := by
          rw [assocGet_accAdd_self, assocGet_accSetdefault_self]
          simp
        have hsum : sumBy kf bf (a :: rest) (kf a) = bf a + sumBy kf bf rest (kf a) := by
          simp [sumBy, List.filter_cons]
        rw [hself]
        rw [if_pos (Or.inl (by simp)), if_pos (Or.inr (by simp))]
        simp only [Option.getD_some]
        rw [hsum, tAdd_tAdd]
      · have hother : assocGet (accAdd (accSetdefault acc (kf a)) (kf a) isDown (bf a)) d
            = assocGet acc d := by
          rw [assocGet_accAdd_other _ _ _ _ _ hd, assocGet_accSetdefault_other _ _ _ hd]
        have hkfneq : (kf a == d) = false := by
          simp only [beq_eq_false_iff_ne, ne_eq]
          exact fun hh => hd hh.symm
        have hsum : sumBy kf bf (a :: rest) d = sumBy kf bf rest d := by
          simp [sumBy, List.filter_cons, hkfneq]
        rw [hother, hsum]
        have hcond : ((assocGet acc d).isSome = true ∨ d ∈ (a :: rest).map kf)
            ↔ ((assocGet acc d).isSome = true ∨ d ∈ rest.map kf) := by
          rw [List.map_cons, List.mem_cons]
          constructor
          · rintro (hc | hc | hc)
            · exact Or.inl hc
            · exact absurd hc hd
            · exact Or.inr hc
          · rintro (hc | hc)
            · exact Or.inl hc
            · exact Or.inr (Or.inr hc)
        by_cases hc : (assocGet acc d).isSome = true ∨ d ∈ rest.map kf
        · rw [if_pos hc, if_pos (hcond.mpr hc)]
        · rw [if_neg hc, if_neg (fun hh => hc (hcond.mp hh))]

/-! ## Well-formed input builders -/

/-- A well-formed allocation entry `{"match": {"devid": k}, "bytes": n}`
(with the device id already a string). -/
def mkAlloc (kv : String × Int) : JsonVal :=
  .obj [("match", .obj [("devid", .str kv.1)]), ("bytes", .num kv.2)]

/-- A tree carrying its allocation list under the lower-case key. -/
def allocTreeL (l : List (String × Int)) : JsonVal :=
  .obj [("AutoAlloc", .obj [("bandwidth_allocations", .arr (l.map mkAlloc))])]

/-- A tree carrying its allocation list under the capitalised key. -/
def allocTreeU (l : List (String × Int)) : JsonVal :=
  .obj [("AutoAlloc", .obj [("BandwidthAllocations", .arr (l.map mkAlloc))])]

/-- An allocation entry with no `match` (hence no device id): `{"bytes": n}`. -/
def mkAllocNoId (n : Int) : JsonVal := .obj [("bytes", .num n)]

/-- A download tree whose allocation entries all lack a device id. -/
def allocTreeNoId (ns : List Int) : JsonVal :=
  .obj [("AutoAlloc", .obj [("bandwidth_allocations", .arr (ns.map mkAllocNoId))])]

theorem alloc_step_mkAlloc (isDown : Bool) (a : String × Int)
    (acc : List (String × TEntry)) :
    alloc_step isDown (mkAlloc a) acc
      = .ok (accAdd (accSetdefault acc a.1) a.1 isDown a.2) := rfl

theorem alloc_step_mkAllocNoId (isDown : Bool) (n : Int)
    (acc : List (String × TEntry)) :
    alloc_step isDown (mkAllocNoId n) acc
      = .ok (accAdd (accSetdefault acc "None") "None" isDown n) := rfl

theorem tree_items_allocTreeL (l : List (String × Int)) :
    tree_items (allocTreeL l) = .ok (l.map mkAlloc) := by
  cases l <;> rfl

theorem tree_items_allocTreeU (l : List (String × Int)) :
    tree_items (allocTreeU l) = .ok (l.map mkAlloc) := by
  cases l <;> rfl

theorem tree_items_allocTreeNoId (ns : List Int) :
    tree_items (allocTreeNoId ns) = .ok (ns.map mkAllocNoId) := by
  cases ns <;> rfl

theorem tree_items_empty : tree_items (.obj []) = .ok [] := rfl

/-- Value of `sumBy` at a key that no entry carries is zero. -/
theorem sumBy_not_mem {α : Type} (kf : α → String) (bf : α → Int) (l : List α)
    (d : String) (h : d ∉ l.map kf) :
    sumBy kf bf l d = 0 := by
  induction l with
  | nil => simp [sumBy]
  | cons a rest ih =>
      simp only [List.map_cons, List.mem_cons, not_or] at h
      have : (kf a == d) = false := by
        simp only [beq_eq_false_iff_ne, ne_eq]
        exact fun hh => h.1 hh.symm
      simp only [sumBy, List.filter_cons, this, Bool.false_eq_true, if_false]
      exact ih h.2

/-- A device entry with no `devid` field (only a hostname). -/
def mkDevNoId (s : String) : JsonVal := .obj [("hostname", .str s)]

/-- The device metadata `_index_devices` derives for `mkDevNoId s`:
`str(None) = "None"` becomes the id, the name falls back from the absent
`uhost` to the hostname (or to `device_None` when the hostname is empty),
and no interfaces means no macs. -/
def devMetaNoId (s : String) : DeviceMeta :=
  ⟨if pyTruthy (.str s) then .str s else .str "device_None", []⟩

theorem index_device_one_mkDevNoId (s : String) :
    index_device_one (mkDevNoId s) = .ok ("None", devMetaNoId s) := rfl

theorem index_devices_go_none (hs : List String) (m : DeviceMeta) :
    index_devices_go (hs.map mkDevNoId) [("None", m)]
      = .ok [("None", hs.foldl (fun _ s => devMetaNoId s) m)] := by
  induction hs generalizing m with
  | nil => rfl
  | cons s rest ih =>
      rw [List.map_cons]
      simp only [index_devices_go, index_device_one_mkDevNoId]
      have hset : dictSet [("None", m)] "None" (devMetaNoId s)
          = [("None", devMetaNoId s)] := rfl
      rw [hset, ih]
      simp

/-- Every successful `alloc_step` is a setdefault-then-add at some key. -/
theorem alloc_step_ok_shape (isDown : Bool) (item : JsonVal)
    (acc acc' : List (String × TEntry)) (h : alloc_step isDown item acc = .ok acc') :
    ∃ k n, acc' = accAdd (accSetdefault acc k) k isDown n := by
  unfold alloc_step at h
  split at h
  · cases h
  · split at h
    · cases h
    · split at h
      · cases h
      · split at h
        · cases h
        · simp only [Except.ok.injEq] at h
          exact ⟨_, _, h.symm⟩

/-- A per-entry property preserved by `tAdd isDown` and satisfied by the
fresh zero entry is an invariant of `process_items isDown`. -/
theorem process_items_preserves (isDown : Bool) (P : TEntry → Prop)
    (hdef : P ⟨0, 0, none, none⟩)
    (hadd : ∀ n e, P e → P (tAdd isDown n e)) :
    ∀ (items : List JsonVal) (acc : List (String × TEntry)),
      (∀ d e, assocGet acc d = some e → P e) →
      ∀ d e, assocGet (process_items isDown items acc) d = some e → P e := by
  have hstep : ∀ item acc acc', alloc_step isDown item acc = .ok acc' →
      (∀ d e, assocGet acc d = some e → P e) →
      ∀ d e, assocGet acc' d = some e → P e := by
    intro item acc acc' hok hinv d e hd
    obtain ⟨k, n, rfl⟩ := alloc_step_ok_shape isDown item acc acc' hok
    by_cases hdk : d = k
    · subst hdk
      rw [assocGet_accAdd_self, assocGet_accSetdefault_self] at hd
      simp only [Option.map_some', Option.some.injEq] at hd
      subst hd
      cases hacc : assocGet acc d with
      | none => simpa [hacc] using hadd n _ hdef
      | some e0 => simpa [hacc] using hadd n e0 (hinv d e0 hacc)
    · rw [assocGet_accAdd_other _ _ _ _ _ hdk,
        assocGet_accSetdefault_other _ _ _ hdk] at hd
      exact hinv d e hd
  intro items
  induction items with
  | nil => intro acc hinv d e hd; exact hinv d e hd
  | cons item rest ih =>
      intro acc hinv d e hd
      rw [process_items] at hd
      cases hok : alloc_step isDown item acc with
      | error e2 => rw [hok] at hd; exact hinv d e hd
      | ok acc' =>
          rw [hok] at hd
          exact ih acc' (hstep item acc acc' hok hinv) d e hd

/-- Concrete malformed download tree: one good 100-byte allocation for
device "1" followed by a junk entry (`42`) that raises inside the loop. -/
def exBadDown : JsonVal :=
  .obj [("AutoAlloc", .obj [("bandwidth_allocations",
    .arr [mkAlloc ("1", 100), .num 42])])]

/-! ## Presence lemmas -/

theorem jeq_str_left (s : String) (q : JsonVal) :
    jeq (.str s) q = true ↔ q = .str s := by
  cases q <;> simp [jeq]
  exact eq_comm

theorem jeq_str_right (s : String) (q : JsonVal) :
    jeq q (.str s) = true ↔ q = .str s := by
  cases q <;> simp [jeq]

theorem assocGetJ_dictSetJ_self (m : List (JsonVal × Bool)) (s : String) (v : Bool) :
    assocGetJ (dictSetJ m (.str s) v) (.str s) = some v := by
  have hself : jeq (JsonVal.str s) (.str s) = true := (jeq_str_left s _).mpr rfl
  induction m with
  | nil => simp [dictSetJ, assocGetJ, hself]
  | cons kv r ih =>
      obtain ⟨k', v'⟩ := kv
      by_cases hk : jeq k' (.str s) = true
      · simp [dictSetJ, hk, assocGetJ, hself]
      · simp [dictSetJ, hk, assocGetJ, ih]

theorem assocGetJ_dictSetJ_other (m : List (JsonVal × Bool)) (s : String) (v : Bool)
    (q : JsonVal) (hq : q ≠ .str s) :
    assocGetJ (dictSetJ m (.str s) v) q = assocGetJ m q := by
  have hnq : ¬jeq (JsonVal.str s) q = true := fun hj => hq ((jeq_str_left s q).mp hj)
  induction m with
  | nil => simp [dictSetJ, assocGetJ, hnq]
  | cons kv r ih =>
      obtain ⟨k', v'⟩ := kv
      by_cases hk : jeq k' (.str s) = true
      · have hk' : k' = .str s := (jeq_str_right s k').mp hk
        subst hk'
        simp [dictSetJ, hk, assocGetJ, hnq]
      · simp [dictSetJ, hk, assocGetJ, ih]

/-- A well-formed online-interface entry `{"mac": s}`. -/
def mkIface (s : String) : JsonVal := .obj [("mac", .str s)]

/-- Characterisation of the `mac_online` comprehension over well-formed
online-interface entries `{"mac": s}`: a key is present (with truthy value)
iff it was present in the seed or equals some non-empty listed mac. -/
theorem mac_online_map_spec (macs : List String) :
    ∀ acc, ∃ mo, mac_online_map (macs.map mkIface) acc = .ok mo
      ∧ ∀ q, ((assocGetJ mo q).getD false = true ↔
          ((assocGetJ acc q).getD false = true ∨ ∃ s, s ∈ macs ∧ s ≠ "" ∧ q = .str s)) := by
  induction macs with
  | nil =>
      intro acc
      exact ⟨acc, rfl, fun q => by simp⟩
  | cons s rest ih =>
      intro acc
      have hstep : mac_online_map ((s :: rest).map mkIface) acc
          = mac_online_map (rest.map mkIface)
              (if pyTruthy (.str s) then dictSetJ acc (.str s) true else acc) := rfl
      by_cases hs : s = ""
      · subst hs
        obtain ⟨mo, hmo, hq⟩ := ih acc
        refine ⟨mo, by rw [hstep]; simpa [pyTruthy] using hmo, fun q => ?_⟩
        rw [hq q]
        constructor
        · rintro (h | ⟨t, ht, hne, rfl⟩)
          · exact Or.inl h
          · exact Or.inr ⟨t, List.mem_cons_of_mem _ ht, hne, rfl⟩
        · rintro (h | ⟨t, ht, hne, rfl⟩)
          · exact Or.inl h
          · rcases List.mem_cons.mp ht with rfl | ht'
            · exact absurd rfl hne
            · exact Or.inr ⟨t, ht', hne, rfl⟩
      · obtain ⟨mo, hmo, hq⟩ := ih (dictSetJ acc (.str s) true)
        have htr : pyTruthy (.str s) = true := by
          simpa [pyTruthy] using hs
        refine ⟨mo, by rw [hstep, htr]; simpa using hmo, fun q => ?_⟩
        rw [hq q]
        by_cases hqs : q = .str s
        · subst hqs
          rw [assocGetJ_dictSetJ_self]
          simp only [Option.getD_some]
          constructor
          · intro _
            exact Or.inr ⟨s, List.mem_cons_self _ _, hs, rfl⟩
          · intro _
            exact Or.inl trivial
        · rw [assocGetJ_dictSetJ_other acc s true q hqs]
          constructor
          · rintro (h | ⟨t, ht, hne, rfl⟩)
            · exact Or.inl h
            · exact Or.inr ⟨t, List.mem_cons_of_mem _ ht, hne, rfl⟩
          · rintro (h | ⟨t, ht, hne, rfl⟩)
            · exact Or.inl h
            · rcases List.mem_cons.mp ht with heq | ht'
              · exact absurd (by rw [heq] : JsonVal.str t = JsonVal.str s) hqs
              · exact Or.inr ⟨t, ht', hne, rfl⟩

/-- Looking a key up after mapping the values of an association list. -/
theorem assocGet_map_val {β γ : Type} (g : β → γ) (l : List (String × β)) (d : String) :
    assocGet (l.map (fun kv => (kv.1, g kv.2))) d = (assocGet l d).map g := by
  induction l with
  | nil => simp [assocGet]
  | cons kv r ih =>
      obtain ⟨k', v'⟩ := kv
      by_cases h : k' = d <;> simp [assocGet, h, ih]

/-! ## Rate-derivation lemmas -/

theorem process_items_nodup (isDown : Bool) :
    ∀ (items : List JsonVal) (acc : List (String × TEntry)),
      (acc.map Prod.fst).Nodup →
      ((process_items isDown items acc).map Prod.fst).Nodup := by
  intro items
  induction items with
  | nil => intro acc h; exact h
  | cons item rest ih =>
      intro acc h
      rw [process_items]
      cases hok : alloc_step isDown item acc with
      | error e => exact h
      | ok acc' =>
          obtain ⟨k, n, rfl⟩ := alloc_step_ok_shape _ _ _ _ hok
          exact ih _ (step_acc_nodup acc k isDown n h)

theorem traffic_from_trees_nodup (up down : JsonVal) :
    ((traffic_from_trees up down).map Prod.fst).Nodup := by
  unfold traffic_from_trees process_tree
  cases htd : tree_items down <;> cases htu : tree_items up <;>
    simp only [htd, htu]
  · simp
  · exact process_items_nodup false _ [] (by simp)
  · exact process_items_nodup true _ [] (by simp)
  · exact process_items_nodup false _ _ (process_items_nodup true _ [] (by simp))

/-- One unfolding of the `_merge_traffic` per-device loop. -/
theorem rate_entries_cons (dt : ℚ) (k : String) (e : TEntry)
    (rest : List (String × TEntry)) (lb : List (String × (Int × Int))) :
    rate_entries dt ((k, e) :: rest) lb
      = ((k, { e with
            rx_rate_bps := some (((e.rx_bytes : ℚ)
              - ((((assocGet lb k).getD (0, 0)).1 : Int) : ℚ)) / dt),
            tx_rate_bps := some (((e.tx_bytes : ℚ)
              - ((((assocGet lb k).getD (0, 0)).2 : Int) : ℚ)) / dt) })
          :: (rate_entries dt rest (dictSet lb k (e.rx_bytes, e.tx_bytes))).1,
         (rate_entries dt rest (dictSet lb k (e.rx_bytes, e.tx_bytes))).2) := rfl

theorem rate_entries_lb_other (dt : ℚ) :
    ∀ (merged : List (String × TEntry)) (lb : List (String × (Int × Int)))
      (d : String), d ∉ merged.map Prod.fst →
      assocGet (rate_entries dt merged lb).2 d = assocGet lb d := by
  intro merged
  induction merged with
  | nil => intro lb d _; rfl
  | cons ke rest ih =>
      obtain ⟨k, e⟩ := ke
      intro lb d h
      simp only [List.map_cons, List.mem_cons, not_or] at h
      rw [rate_entries_cons]
      show assocGet (rate_entries dt rest (dictSet lb k (e.rx_bytes, e.tx_bytes))).2 d
        = assocGet lb d
      rw [ih _ d h.2, assocGet_dictSet_other _ _ _ _ h.1]

/-- The per-device characterisation of the `_merge_traffic` loop: each
device of the fresh sample gets rates `(bytes - baseline)/dt` against the
`_last_bytes` baseline (zero for ids never seen before), and its stored
baseline afterwards equals the new byte counts. -/
theorem rate_entries_spec (dt : ℚ) :
    ∀ (merged : List (String × TEntry)) (lb : List (String × (Int × Int))),
      (merged.map Prod.fst).Nodup →
      ∀ d e, assocGet merged d = some e →
        assocGet (rate_entries dt merged lb).1 d
          = some { e with
              rx_rate_bps := some (((e.rx_bytes : ℚ)
                - ((((assocGet lb d).getD (0, 0)).1 : Int) : ℚ)) / dt),
              tx_rate_bps := some (((e.tx_bytes : ℚ)
                - ((((assocGet lb d).getD (0, 0)).2 : Int) : ℚ)) / dt) }
        ∧ assocGet (rate_entries dt merged lb).2 d = some (e.rx_bytes, e.tx_bytes) := by
  intro merged
  induction merged with
  | nil => intro lb _ d e hd; simp [assocGet] at hd
  | cons ke rest ih =>
      obtain ⟨k, e0⟩ := ke
      intro lb hnd d e hd
      simp only [List.map_cons, List.nodup_cons] at hnd
      rw [rate_entries_cons]
      by_cases hk : k = d
      · subst hk
        have he : e0 = e := by simpa [assocGet] using hd
        subst he
        constructor
        · simp [assocGet]
        · show assocGet (rate_entries dt rest (dictSet lb k (e0.rx_bytes, e0.tx_bytes))).2 k
            = some (e0.rx_bytes, e0.tx_bytes)
          rw [rate_entries_lb_other dt rest _ k hnd.1, assocGet_dictSet_self]
      · have hd' : assocGet rest d = some e := by
          simpa [assocGet, hk] using hd
        have hbl : assocGet (dictSet lb k (e0.rx_bytes, e0.tx_bytes)) d = assocGet lb d :=
          assocGet_dictSet_other _ _ _ _ (fun hh => hk hh.symm)
        have h2 := ih (dictSet lb k (e0.rx_bytes, e0.tx_bytes)) hnd.2 d e hd'
        rw [hbl] at h2
        constructor
        · show assocGet ((k, _) :: (rate_entries dt rest _).1) d = _
          rw [show ∀ (x : TEntry) (y : List (String × TEntry)),
              assocGet ((k, x) :: y) d = assocGet y d from
            fun x y => by simp [assocGet, hk]]
          exact h2.1
        · exact h2.2

theorem rate_entries_fst_keys (dt : ℚ) :
    ∀ (merged : List (String × TEntry)) (lb : List (String × (Int × Int))),
      ((rate_entries dt merged lb).1).map Prod.fst = merged.map Prod.fst := by
  intro merged
  induction merged with
  | nil => intro lb; rfl
  | cons ke rest ih =>
      obtain ⟨k, e⟩ := ke
      intro lb
      rw [rate_entries_cons]
      simp only [List.map_cons, List.cons.injEq, true_and]
      exact ih _

/-! ## Theorems -/

/-- C4: `_traffic_from_trees` (the spec's `deriveTraffic`) sums the byte
counts of all allocation entries carrying the same device id within one
tree — totals add, never overwrite — accumulating the download tree into
`rx_bytes` and the upload tree into `tx_bytes`; the allocation list is read
under either of the two key capitalisations (`bandwidth_allocations` and
`BandwidthAllocations` behave identically); and the §8 example — download
allocations of 100 and 50 bytes for device "5", upload allocation of 30
bytes for device "5" — yields exactly `{"5": {rx_bytes: 150, tx_bytes: 30}}`. -/
theorem C4_traffic_from_trees_sums :
    (∀ (ups downs : List (String × Int)) (d : String),
       assocGet (traffic_from_trees (allocTreeL ups) (allocTreeL downs)) d =
         if d ∈ downs.map Prod.fst ∨ d ∈ ups.map Prod.fst then
           some ⟨sumBy Prod.fst Prod.snd downs d, sumBy Prod.fst Prod.snd ups d,
                 none, none⟩
         else none)
    ∧ (∀ ups downs, traffic_from_trees (allocTreeU ups) (allocTreeU downs)
         = traffic_from_trees (allocTreeL ups) (allocTreeL downs))
    ∧ traffic_from_trees (allocTreeL [("5", 30)]) (allocTreeL [("5", 100), ("5", 50)])
         = [("5", ⟨150, 30, none, none⟩)] := by
  refine ⟨fun ups downs d => ?_, fun ups downs => ?_, rfl⟩
  · have hdown : process_tree true (allocTreeL downs) []
        = process_items true (downs.map mkAlloc) [] := by
      unfold process_tree
      rw [tree_items_allocTreeL]
    have hup : process_tree false (allocTreeL ups) (process_items true (downs.map mkAlloc) [])
        = process_items false (ups.map mkAlloc) (process_items true (downs.map mkAlloc) []) := by
      unfold process_tree
      rw [tree_items_allocTreeL]
    unfold traffic_from_trees
    rw [hdown, hup]
    have hmid : assocGet (process_items true (downs.map mkAlloc) []) d =
        if d ∈ downs.map Prod.fst then
          some ⟨sumBy Prod.fst Prod.snd downs d, 0, none, none⟩
        else none := by
      rw [process_items_build true mkAlloc Prod.fst Prod.snd (alloc_step_mkAlloc true)
        downs [] d]
      by_cases hdm : d ∈ downs.map Prod.fst
      · rw [if_pos (Or.inr hdm), if_pos hdm]
        simp [tAdd, assocGet]
      · have hneg : ¬((assocGet ([] : List (String × TEntry)) d).isSome = true
            ∨ d ∈ downs.map Prod.fst) := by
          rintro (hc | hc)
          · simp [assocGet] at hc
          · exact hdm hc
        rw [if_neg hneg, if_neg hdm]
    rw [process_items_build false mkAlloc Prod.fst Prod.snd (alloc_step_mkAlloc false)
      ups (process_items true (downs.map mkAlloc) []) d]
    by_cases hdn : d ∈ downs.map Prod.fst
    · rw [if_pos hdn] at hmid
      rw [hmid, if_pos (Or.inl (by simp)), if_pos (Or.inl hdn)]
      simp [tAdd]
    · rw [if_neg hdn] at hmid
      rw [hmid]
      by_cases hu : d ∈ ups.map Prod.fst
      · rw [if_pos (Or.inr hu), if_pos (Or.inr hu)]
        simp [tAdd, sumBy_not_mem Prod.fst Prod.snd downs d hdn]
      · have h1 : ¬((none : Option TEntry).isSome = true ∨ d ∈ ups.map Prod.fst) := by
          rintro (hc | hc)
          · simp at hc
          · exact hu hc
        have h2 : ¬(d ∈ downs.map Prod.fst ∨ d ∈ ups.map Prod.fst) := by
          rintro (hc | hc)
          · exact hdn hc
          · exact hu hc
        rw [if_neg h1, if_neg h2]
  · unfold traffic_from_trees process_tree
    rw [tree_items_allocTreeU, tree_items_allocTreeU,
      tree_items_allocTreeL, tree_items_allocTreeL]

/-- C7: `_presence_map` (the spec's `derivePresence`) builds the set of
currently-online MAC addresses from the online-interface list (the truthy
`mac` fields) and reports each indexed device as present **iff at least
one** of its MACs is in that set.  In particular macs `["AA","BB"]` against
online set `{"BB"}` give `true` and macs `["CC"]` give `false` (see the
witness). -/
theorem C7_presence_any_mac (onlineMacs : List String) (st : CoordState) (dm : DataMap)
    (hdm : st.data = some dm) :
    ∃ pm, presence_map st (.arr (onlineMacs.map mkIface)) = .ok pm
      ∧ ∀ devid meta, assocGet (dm.devices.getD []) devid = some meta →
          ∃ b, assocGet pm devid = some b
            ∧ (b = true ↔ ∃ m, m ∈ meta.macs
                ∧ ∃ s, s ∈ onlineMacs ∧ s ≠ "" ∧ m = .str s) := by
  obtain ⟨mo, hmo, hq⟩ := mac_online_map_spec onlineMacs []
  refine ⟨(dm.devices.getD []).map
      (fun kv => (kv.1,
        (fun meta : DeviceMeta => meta.macs.any (fun m => (assocGetJ mo m).getD false)) kv.2)),
    ?_, ?_⟩
  · unfold presence_map
    simp only [pyIter, hmo, hdm]
  · intro devid meta hmeta
    refine ⟨meta.macs.any (fun m => (assocGetJ mo m).getD false), ?_, ?_⟩
    · rw [assocGet_map_val
        (fun meta : DeviceMeta => meta.macs.any (fun m => (assocGetJ mo m).getD false))
        (dm.devices.getD []) devid, hmeta]
      rfl
    · rw [List.any_eq_true]
      constructor
      · rintro ⟨m, hm, hmo'⟩
        rcases (hq m).mp hmo' with h | ⟨s, hsmem, hsne, rfl⟩
        · simp [assocGetJ] at h
        · exact ⟨.str s, hm, s, hsmem, hsne, rfl⟩
      · rintro ⟨m, hm, s, hsmem, hsne, rfl⟩
        exact ⟨.str s, hm, (hq (.str s)).mpr (Or.inr ⟨s, hsmem, hsne, rfl⟩)⟩

/-- C7 witness: device "1" with macs `["AA","BB"]` is present against the
online set `{"BB"}`; device "2" with macs `["CC"]` is not. -/
theorem C7_presence_any_mac_witness :
    ∃ pm, presence_map
        ⟨some ⟨some [("1", ⟨.str "d1", [.str "AA", .str "BB"]⟩),
                     ("2", ⟨.str "d2", [.str "CC"]⟩)], none, none, none⟩, [], 0⟩
        (.arr (["BB"].map mkIface)) = .ok pm
      ∧ assocGet pm "1" = some true ∧ assocGet pm "2" = some false := by
  obtain ⟨pm, hpm, hspec⟩ := C7_presence_any_mac ["BB"]
      ⟨some ⟨some [("1", ⟨.str "d1", [.str "AA", .str "BB"]⟩),
                   ("2", ⟨.str "d2", [.str "CC"]⟩)], none, none, none⟩, [], 0⟩
      ⟨some [("1", ⟨.str "d1", [.str "AA", .str "BB"]⟩),
             ("2", ⟨.str "d2", [.str "CC"]⟩)], none, none, none⟩ rfl
  have heval : presence_map
      ⟨some ⟨some [("1", ⟨.str "d1", [.str "AA", .str "BB"]⟩),
                   ("2", ⟨.str "d2", [.str "CC"]⟩)], none, none, none⟩, [], 0⟩
      (.arr (["BB"].map mkIface)) = .ok [("1", true), ("2", false)] := by
    simp [presence_map, pyIter, mac_online_map, pyGet, assocGet, pyTruthy, dictSetJ,
      assocGetJ, jeq, mkIface]
  rw [heval] at hpm
  injection hpm with h
  subst h
  exact ⟨[("1", true), ("2", false)], heval, rfl, rfl⟩

/-- C9: `_merge_state` (the first full refresh) always produces a state
whose `data` dict carries all four top-level keys `devices`, `presence`,
`traffic`, `system`; and each per-cadence step — `_merge_presence`,
`_merge_traffic`, and the `_refresh_system` merge — keeps its own key
present while leaving the values stored under the other three keys exactly
unchanged, so the four-key invariant is preserved by every refresh step. -/
theorem C9_four_key_invariant :
    (∀ (st : CoordState) (now : ℚ) (devices online up down sysv : JsonVal)
       (st' : CoordState),
       merge_state st now devices online up down sysv = .ok st' →
       ∃ dm', st'.data = some dm' ∧ dm'.devices.isSome ∧ dm'.presence.isSome
         ∧ dm'.traffic.isSome ∧ dm'.system.isSome)
    ∧ (∀ (st : CoordState) (online : JsonVal) (st' : CoordState) (dm dm' : DataMap),
       merge_presence st online = .ok st' → st.data = some dm → st'.data = some dm' →
       dm'.presence.isSome ∧ dm'.devices = dm.devices ∧ dm'.traffic = dm.traffic
         ∧ dm'.system = dm.system)
    ∧ (∀ (st : CoordState) (now : ℚ) (up down : JsonVal) (st' : CoordState)
       (dm dm' : DataMap),
       merge_traffic st now up down = .ok st' → st.data = some dm →
       st'.data = some dm' →
       dm'.traffic.isSome ∧ dm'.devices = dm.devices ∧ dm'.presence = dm.presence
         ∧ dm'.system = dm.system)
    ∧ (∀ (st : CoordState) (sysv : JsonVal) (st' : CoordState) (dm dm' : DataMap),
       refresh_system st sysv = .ok st' → st.data = some dm → st'.data = some dm' →
       dm'.system.isSome ∧ dm'.devices = dm.devices ∧ dm'.presence = dm.presence
         ∧ dm'.traffic = dm.traffic) := by
  refine ⟨?_, ?_, ?_, ?_⟩
  · intro st now devices online up down sysv st' h
    unfold merge_state at h
    split at h
    · cases h
    · split at h
      · cases h
      · injection h with h'
        subst h'
        exact ⟨_, rfl, by simp, by simp, by simp, by simp⟩
  · intro st online st' dm dm' h hdm hdm'
    unfold merge_presence at h
    rw [hdm] at h
    split at h
    · cases h
    · rename_i dm0 heq
      injection heq with heq'
      subst heq'
      split at h
      · cases h
      · injection h with h'
        subst h'
        simp only [] at hdm'
        injection hdm' with h''
        subst h''
        exact ⟨by simp, rfl, rfl, rfl⟩
  · intro st now up down st' dm dm' h hdm hdm'
    unfold merge_traffic at h
    rw [hdm] at h
    injection h with h'
    subst h'
    simp only [] at hdm'
    injection hdm' with h''
    subst h''
    exact ⟨by simp, rfl, rfl, rfl⟩
  · intro st sysv st' dm dm' h hdm hdm'
    unfold refresh_system at h
    rw [hdm] at h
    split at h
    · cases h
    · rename_i dm0 heq
      injection heq with heq'
      subst heq'
      split at h
      · cases h
      · injection h with h'
        subst h'
        simp only [] at hdm'
        injection hdm' with h''
        subst h''
        exact ⟨by simp, rfl, rfl, rfl⟩

/-- C9 witness: a concrete run — full refresh from the fresh state, then a
presence step, a traffic step and a system step, each keeping the four keys
and the other sections. -/
theorem C9_four_key_invariant_witness :
    ∃ st' dm', merge_presence
        ⟨some ⟨some [], some [], some [], some (.obj [])⟩, [], 1⟩ (.arr [])
        = .ok st'
      ∧ st'.data = some dm' ∧ dm'.presence.isSome
      ∧ dm'.devices = some [] ∧ dm'.traffic = some [] ∧ dm'.system = some (.obj []) := by
  have h : merge_presence ⟨some ⟨some [], some [], some [], some (.obj [])⟩, [], 1⟩
      (.arr []) = .ok ⟨some ⟨some [], some [], some [], some (.obj [])⟩, [], 1⟩ := rfl
  obtain ⟨hps, hdev, htr, hsys⟩ := C9_four_key_invariant.2.1
    ⟨some ⟨some [], some [], some [], some (.obj [])⟩, [], 1⟩ (.arr [])
    ⟨some ⟨some [], some [], some [], some (.obj [])⟩, [], 1⟩
    ⟨some [], some [], some [], some (.obj [])⟩
    ⟨some [], some [], some [], some (.obj [])⟩ h rfl rfl
  exact ⟨_, _, h, rfl, hps, hdev, htr, hsys⟩

/-- C10: a device entry lacking the `devid` field is not skipped by
`_index_devices` but keyed under the literal string `"None"`
(`str(d.get("devid")) = str(None)`), so any number of id-less devices
collapse into the single `"None"` entry (the last one wins); likewise
`_traffic_from_trees` keys allocation entries whose `match` lacks a device
id under `"None"` and sums all their byte counts into that one entry. -/
theorem C10_missing_devid_keyed_None :
    (∀ (h0 : String) (hs : List String),
       index_devices (.arr ((h0 :: hs).map mkDevNoId))
         = .ok [("None", devMetaNoId (hs.foldl (fun _ s => s) h0))])
    ∧ (∀ ns : List Int,
       assocGet (traffic_from_trees (.obj []) (allocTreeNoId ns)) "None"
         = if ns.isEmpty then none else some ⟨ns.sum, 0, none, none⟩) := by
  constructor
  · intro h0 hs
    have hgo : index_devices (.arr ((h0 :: hs).map mkDevNoId))
        = index_devices_go ((h0 :: hs).map mkDevNoId) [] := rfl
    rw [hgo, List.map_cons]
    simp only [index_devices_go, index_device_one_mkDevNoId]
    have hset : dictSet ([] : List (String × DeviceMeta)) "None" (devMetaNoId h0)
        = [("None", devMetaNoId h0)] := rfl
    rw [hset, index_devices_go_none]
    have hfold : ∀ (l : List String) (x : String),
        l.foldl (fun _ s => devMetaNoId s) (devMetaNoId x)
          = devMetaNoId (l.foldl (fun _ s => s) x) := by
      intro l
      induction l with
      | nil => intro x; rfl
      | cons y r ih => intro x; simp only [List.foldl_cons]; exact ih y
    rw [hfold]
  · intro ns
    have hshape : traffic_from_trees (.obj []) (allocTreeNoId ns)
        = process_items true (ns.map mkAllocNoId) [] := by
      unfold traffic_from_trees process_tree
      rw [tree_items_allocTreeNoId, tree_items_empty]
      rfl
    rw [hshape, process_items_build true mkAllocNoId (fun _ => "None") id
      (alloc_step_mkAllocNoId true) ns [] "None"]
    have hsum : sumBy (fun _ => "None") id ns "None" = ns.sum := by
      simp [sumBy]
    cases ns with
    | nil => rfl
    | cons n rest =>
        rw [if_pos (Or.inr (by simp))]
        rw [hsum]
        simp [tAdd, assocGet]

/-- C6 counterexample: the claim "a malformed tree contributes zero bytes to
its direction" fails.  `exBadDown` is structurally malformed — its second
allocation entry is the number `42`, whose processing raises and aborts the
tree (`tree_malformed` is `true`) — yet `deriveTraffic` keeps the 100 bytes
accumulated from the entry processed *before* the failure, so the malformed
download tree contributes a non-zero `rx_bytes`. -/
theorem C6_partial_tree_counterexample :
    tree_malformed exBadDown = true
    ∧ assocGet (traffic_from_trees (.obj []) exBadDown) "1"
        = some ⟨100, 0, none, none⟩
    ∧ (100 : Int) ≠ 0 := by
  refine ⟨rfl, rfl, by decide⟩

/-- C6 amended: `deriveTraffic` is total (it returns a mapping for every
pair of inputs; tree-parse failures were already downgraded to `{}` by
`_parse_tree`), and a tree whose allocation list cannot even be extracted or
iterated contributes nothing to the result, leaving the other tree's
contribution unaffected; a tree with no allocations contributes zero to its
direction (every entry of a result computed with an empty download tree has
`rx_bytes = 0`, and dually).  However, when an *individual* allocation entry
fails partway through a tree, the contributions of the entries processed
before the failure are kept, not zeroed (see the counterexample). -/
theorem C6_graceful_degradation_amended :
    (∀ up down e, tree_items down = .error e →
       traffic_from_trees up down = traffic_from_trees up (.obj []))
    ∧ (∀ up down e, tree_items up = .error e →
       traffic_from_trees up down = traffic_from_trees (.obj []) down)
    ∧ (∀ up d e, assocGet (traffic_from_trees up (.obj [])) d = some e →
       e.rx_bytes = 0)
    ∧ (∀ down d e, assocGet (traffic_from_trees (.obj []) down) d = some e →
       e.tx_bytes = 0) := by
  refine ⟨?_, ?_, ?_, ?_⟩
  · intro up down e h
    unfold traffic_from_trees process_tree
    rw [h, tree_items_empty]
    rfl
  · intro up down e h
    unfold traffic_from_trees process_tree
    rw [h, tree_items_empty]
    rfl
  · intro up d e hd
    have h0 : traffic_from_trees up (.obj []) = process_tree false up [] := rfl
    rw [h0] at hd
    unfold process_tree at hd
    cases hti : tree_items up with
    | error e2 =>
        rw [hti] at hd
        simp [assocGet] at hd
    | ok items =>
        rw [hti] at hd
        refine process_items_preserves false (fun x => x.rx_bytes = 0) rfl ?_ items []
          (by intro d' e' h'; simp [assocGet] at h') d e hd
        intro n x hx
        simpa [tAdd] using hx
  · intro down d e hd
    have h0 : traffic_from_trees (.obj []) down = process_tree true down [] := rfl
    rw [h0] at hd
    unfold process_tree at hd
    cases hti : tree_items down with
    | error e2 =>
        rw [hti] at hd
        simp [assocGet] at hd
    | ok items =>
        rw [hti] at hd
        refine process_items_preserves true (fun x => x.tx_bytes = 0) rfl ?_ items []
          (by intro d' e' h'; simp [assocGet] at h') d e hd
        intro n x hx
        simpa [tAdd] using hx

/-- C6 amended witness: a download tree that is not even a mapping (the
number `3`) contributes nothing — the result is the same as with an empty
download tree — and an entry of an upload-only result carries zero
`rx_bytes`. -/
theorem C6_graceful_degradation_amended_witness :
    traffic_from_trees (allocTreeL [("5", 30)]) (.num 3)
      = traffic_from_trees (allocTreeL [("5", 30)]) (.obj [])
    ∧ (⟨0, 30, none, none⟩ : TEntry).rx_bytes = 0 :=
  ⟨C6_graceful_degradation_amended.1 (allocTreeL [("5", 30)]) (.num 3)
      .attributeError rfl,
   C6_graceful_degradation_amended.2.2.1 (allocTreeL [("5", 30)]) "5"
      ⟨0, 30, none, none⟩ rfl⟩

/-- C3: for a traffic refresh from any reachable state (the timestamp was
set by the first full refresh, so `self._last_ts or now` is `self._last_ts`
and `dt = max(1.0, now - lastTimestamp)`; elapsed time of at most one second
therefore uses `dt = 1`): `_merge_traffic` succeeds, sets `_last_ts := now`,
and gives every device of the freshly derived sample
`rx_rate_bps = (rx_bytes - baseline_rx)/dt` and
`tx_rate_bps = (tx_bytes - baseline_tx)/dt`, where the baseline of a device
id never seen before is the defaultdict zero (first-observation rate
`bytes/dt`); negative deltas divide through unclamped, so they yield
negative rates (`dt > 0`); afterwards the stored `_last_bytes` baseline of
each sampled device equals its new byte counts. -/
theorem C3_merge_traffic_rates (st : CoordState) (now : ℚ) (up down : JsonVal)
    (dm : DataMap) (hts : st.last_ts ≠ 0) (hdm : st.data = some dm) :
    ∃ st', merge_traffic st now up down = .ok st'
      ∧ st'.last_ts = now
      ∧ (1 : ℚ) ≤ max 1 (now - st.last_ts)
      ∧ (now - st.last_ts ≤ 1 → max 1 (now - st.last_ts) = 1)
      ∧ ∀ d e, assocGet (traffic_from_trees (pyOr up (.obj [])) (pyOr down (.obj []))) d
            = some e →
          assocGet st'.trafficDict d = some { e with
              rx_rate_bps := some (((e.rx_bytes : ℚ)
                - ((((assocGet st.last_bytes d).getD (0, 0)).1 : Int) : ℚ))
                  / max 1 (now - st.last_ts)),
              tx_rate_bps := some (((e.tx_bytes : ℚ)
                - ((((assocGet st.last_bytes d).getD (0, 0)).2 : Int) : ℚ))
                  / max 1 (now - st.last_ts)) }
          ∧ assocGet st'.last_bytes d = some (e.rx_bytes, e.tx_bytes)
          ∧ (((e.rx_bytes : ℚ)
                - ((((assocGet st.last_bytes d).getD (0, 0)).1 : Int) : ℚ)) < 0 →
             ((e.rx_bytes : ℚ)
                - ((((assocGet st.last_bytes d).getD (0, 0)).1 : Int) : ℚ))
                  / max 1 (now - st.last_ts) < 0) := by
  have hif : (if st.last_ts = 0 then now else st.last_ts) = st.last_ts := if_neg hts
  have hmt : merge_traffic st now up down = .ok
      ⟨some { dm with traffic := some (dictUpdate (dm.traffic.getD [])
          (rate_entries (max 1 (now - st.last_ts))
            (traffic_from_trees (pyOr up (.obj [])) (pyOr down (.obj [])))
            st.last_bytes).1) },
       (rate_entries (max 1 (now - st.last_ts))
          (traffic_from_trees (pyOr up (.obj [])) (pyOr down (.obj [])))
          st.last_bytes).2, now⟩ := by
    unfold merge_traffic
    rw [hif, hdm]
  refine ⟨_, hmt, rfl, le_max_left _ _, fun h => max_eq_left h, fun d e hd => ?_⟩
  have hnd : ((traffic_from_trees (pyOr up (.obj []))
      (pyOr down (.obj []))).map Prod.fst).Nodup := traffic_from_trees_nodup _ _
  have hspec := rate_entries_spec (max 1 (now - st.last_ts))
    (traffic_from_trees (pyOr up (.obj [])) (pyOr down (.obj [])))
    st.last_bytes hnd d e hd
  have hratednd : (((rate_entries (max 1 (now - st.last_ts))
      (traffic_from_trees (pyOr up (.obj [])) (pyOr down (.obj [])))
      st.last_bytes).1).map Prod.fst).Nodup := by
    rw [rate_entries_fst_keys]
    exact hnd
  refine ⟨?_, hspec.2, fun hneg => div_neg_of_neg_of_pos hneg
    (lt_of_lt_of_le one_pos (le_max_left _ _))⟩
  show assocGet (dictUpdate (dm.traffic.getD []) _) d = _
  exact assocGet_dictUpdate_of_mem _ _ _ hratednd _ hspec.1

/-- C3 witness: baseline `rx = 100` at `t₀ = 10`, fresh sample `rx = 500` at
`t₀ + 4`, gives `rx_rate_bps = 100` and updates the stored baseline to
`(500, 0)`. -/
theorem C3_merge_traffic_rates_witness :
    ∃ st', merge_traffic ⟨some ⟨none, none, none, none⟩, [("5", (100, 0))], 10⟩
        14 .null (allocTreeL [("5", 500)]) = .ok st'
      ∧ assocGet st'.trafficDict "5" = some ⟨500, 0, some 100, some 0⟩
      ∧ assocGet st'.last_bytes "5" = some (500, 0) := by
  obtain ⟨st', hok, _, _, _, hdev⟩ := C3_merge_traffic_rates
    ⟨some ⟨none, none, none, none⟩, [("5", (100, 0))], 10⟩ 14 .null
    (allocTreeL [("5", 500)]) ⟨none, none, none, none⟩ (by simp) rfl
  obtain ⟨h1, h2, _⟩ := hdev "5" ⟨500, 0, none, none⟩ rfl
  refine ⟨st', hok, ?_, h2⟩
  rw [h1]
  simp only [assocGet, if_pos]
  norm_num

/-- C5: `_parse_tree` (= the spec's `unwrapTree`) is a total function — by
construction no input shape raises — and it behaves as specified: a
non-empty list contributes its first element as the candidate, otherwise the
raw value itself is the candidate; a string candidate is JSON-decoded, with
decode failure producing the empty mapping; a mapping candidate is returned
unchanged; every other candidate shape produces the empty mapping.  The
seven concrete §8 inputs `["{"a":1}"]`, `"{"a":1}"`, `{"a":1}`,
`["not json"]`, `[]`, `null`, `42` produce `{"a":1}`, `{"a":1}`, `{"a":1}`,
`{}`, `{}`, `{}`, `{}` respectively. -/
theorem C5_parse_tree_total :
    (∀ s : String, parse_tree (.str s) = (jsonDecode s).getD (.obj []))
    ∧ (∀ fs, parse_tree (.obj fs) = .obj fs)
    ∧ parse_tree .null = .obj []
    ∧ (∀ b, parse_tree (.bool b) = .obj [])
    ∧ (∀ n : Int, parse_tree (.num n) = .obj [])
    ∧ parse_tree (.arr []) = .obj []
    ∧ (∀ x xs, parse_tree (.arr (x :: xs)) =
        (match x with
         | .str s => (jsonDecode s).getD (.obj [])
         | .obj fs => .obj fs
         | _ => .obj []))
    ∧ parse_tree (.arr [.str "\x7b\"a\":1\x7d"]) = .obj [("a", .num 1)]
    ∧ parse_tree (.str "\x7b\"a\":1\x7d") = .obj [("a", .num 1)]
    ∧ parse_tree (.obj [("a", .num 1)]) = .obj [("a", .num 1)]
    ∧ parse_tree (.arr [.str "not json"]) = .obj []
    ∧ parse_tree (.num 42) = .obj [] := by
  refine ⟨fun s => rfl, fun fs => rfl, rfl, fun b => by cases b <;> rfl, fun n => rfl,
    rfl, fun x xs => ?_, rfl, rfl, rfl, rfl, rfl⟩
  cases x <;> rfl

/-- C1: with no username/password configured and the https POST of a
`get_system_info` call answering 401, the transport fails at once with the
HTTP-401 error (the code's surface for the spec's `AuthRequired`: no
dedicated exception class exists) and issues no request to the `http`
scheme or any other URL: the request trace consists exactly of the https
RPC URL, posted twice (attempt 0 and the in-place no-auth retry of line
152-154), both without basic auth.  Without credentials `_ensure_session`
returns before probing, so no negotiation request is made at all. -/
theorem C1_no_creds_401_fails_without_http (o : Oracle) (host : String)
    (body : JsonVal)
    (h : o ⟨rpcUrl (mkClient host false none none) "com.netdumasoftware.systeminfo", false⟩
           = some (401, body)) :
    rpc o (mkClient host false none none) "com.netdumasoftware.systeminfo"
        "get_system_info"
      = (.error (.httpStatus 401),
         [⟨rpcUrl (mkClient host false none none) "com.netdumasoftware.systeminfo", false⟩,
          ⟨rpcUrl (mkClient host false none none) "com.netdumasoftware.systeminfo", false⟩])
    ∧ rpcUrl (mkClient host false none none) "com.netdumasoftware.systeminfo"
        = "https://" ++ (host ++ "/apps/com.netdumasoftware.systeminfo/rpc/") := by
  have hc : credsOk (mkClient host false none none) = false := rfl
  constructor
  · simp only [rpc, ensure_session, hc, Bool.false_eq_true, if_false, h,
      raiseForStatus]
    rfl
  · simp only [rpcUrl, mkClient, String.append_assoc]
    congr 1

/-- C1 witness: the constant-401 network. -/
theorem C1_no_creds_401_fails_without_http_witness :
    rpc (fun _ => some (401, .null)) (mkClient "r3.local" false none none)
        "com.netdumasoftware.systeminfo" "get_system_info"
      = (.error (.httpStatus 401),
         [⟨rpcUrl (mkClient "r3.local" false none none) "com.netdumasoftware.systeminfo", false⟩,
          ⟨rpcUrl (mkClient "r3.local" false none none) "com.netdumasoftware.systeminfo", false⟩]) :=
  (C1_no_creds_401_fails_without_http (fun _ => some (401, .null)) "r3.local" .null rfl).1

/-- C2 (code bug): whenever credentials are configured, `_ensure_session`
raises `AttributeError` at its very first probe statement (client.py line
66, `base = f"{scheme}://{self._host}"`), because `__init__` assigns
`self._base` but never `self._host`.  The https→http probing, cookie-login
fallback and the final `AuthFailed` diagnostic described by the claim are
therefore unreachable code, and no HTTP request is ever issued. -/
theorem C2_ensure_session_attribute_error (o : Oracle) (c : Client)
    (h : credsOk c = true) :
    ensure_session o c = (.error (.missingAttr "_host"), []) := by
  simp only [ensure_session, h, hostAttr, initAttrs]
  rfl

/-- C2 witness: a client with username and password configured. -/
theorem C2_ensure_session_attribute_error_witness :
    ensure_session (fun _ => some (200, .null))
        (mkClient "r3.local" false (some "admin") (some "pw"))
      = (.error (.missingAttr "_host"), []) :=
  C2_ensure_session_attribute_error (fun _ => some (200, .null))
    (mkClient "r3.local" false (some "admin") (some "pw")) (by decide)

/-- C8: once a 2xx JSON-RPC response body is obtained, `_rpc` surfaces a
body containing an `error` field as `RpcError` carrying exactly that
payload, and otherwise returns the `result` field as-is, with an absent
`result` yielding `null` rather than a failure.  (Stated for a client
without credentials, whose `_ensure_session` is a no-op, and a network that
answers 200 with the given dict body.) -/
theorem C8_rpc_error_and_result (o : Oracle) (c : Client) (app method : String)
    (fields : List (String × JsonVal))
    (hc : credsOk c = false)
    (h : o ⟨rpcUrl c app, false⟩ = some (200, .obj fields)) :
    (∀ p, assocGet fields "error" = some p →
       (rpc o c app method).1 = .error (.rpcError p))
    ∧ (assocGet fields "error" = none →
       (rpc o c app method).1 = .ok ((assocGet fields "result").getD .null)) := by
  have hmain : rpc o c app method
      = (parse_body (.obj fields), [⟨rpcUrl c app, false⟩]) := by
    simp only [rpc, ensure_session, hc, Bool.false_eq_true, if_false, hc, h]
    rfl
  constructor
  · intro p hp
    simp only [hmain, parse_body, pyContains, hp, Option.isSome_some, pySubscript]
  · intro hnone
    simp only [hmain, parse_body, pyContains, hnone, Option.isSome_none, pyGet]

/-- C8 witness: an error body surfaces as `RpcError` with its payload, and a
body with neither `error` nor `result` yields `null`. -/
theorem C8_rpc_error_and_result_witness :
    ((rpc (fun _ => some (200, .obj [("error", .num 7)]))
        (mkClient "h" false none none) "a" "m").1 = .error (.rpcError (.num 7)))
    ∧ ((rpc (fun _ => some (200, .obj [("id", .num 1)]))
        (mkClient "h" false none none) "a" "m").1 = .ok .null) := by
  constructor
  · exact (C8_rpc_error_and_result (fun _ => some (200, .obj [("error", .num 7)]))
      (mkClient "h" false none none) "a" "m" [("error", .num 7)] (by decide) rfl).1
      (.num 7) rfl
  · exact (C8_rpc_error_and_result (fun _ => some (200, .obj [("id", .num 1)]))
      (mkClient "h" false none none) "a" "m" [("id", .num 1)] (by decide) rfl).2 rfl

end NetdumaR3
